import Mathlib

/-!
Shallow embedding of `scripts/get_github_channels.py`: an IPTV channel
scraper that fetches one JSON channel list and three M3U playlists,
filters them by country / category / language, and writes CSV files.

Strings are modelled as `List Char` (Python `str`), so that every
operation is a structurally recursive, kernel-computable function.
`str` converts a Lean string literal to this representation.
-/

def str (s : String) : List Char := s.data

/-- Python `pat in hay` needs a prefix test: `isPrefixOfCh p s` is true
iff `p` is a prefix of `s` (empty `p` is a prefix of everything). -/
def isPrefixOfCh : List Char → List Char → Bool
  | [], _ => true
  | _ :: _, [] => false
  | p :: ps, c :: cs => p = c && isPrefixOfCh ps cs

/-- Python substring membership `pat in hay`: true iff `pat` occurs
contiguously in `hay` (an empty `pat` always occurs). -/
def containsSub (pat : List Char) : List Char → Bool
  | [] => isPrefixOfCh pat []
  | c :: t => isPrefixOfCh pat (c :: t) || containsSub pat t

/-- Python `s.split(pat, 1)` for non-empty `pat`: `none` when `pat` does
not occur in `s`, otherwise `some (before, after)` around the first
occurrence. -/
def splitFirst (pat : List Char) : List Char → Option (List Char × List Char)
  | [] => if pat.isEmpty then some ([], []) else none
  | c :: t =>
    if isPrefixOfCh pat (c :: t) then some ([], (c :: t).drop pat.length)
    else match splitFirst pat t with
      | none => none
      | some (a, b) => some (c :: a, b)

/-- Python `s.split(pat, 1)[0]`: the part before the first occurrence of
`pat`, or all of `s` when `pat` does not occur. -/
def beforeFirst (pat s : List Char) : List Char :=
  match splitFirst pat s with
  | none => s
  | some (a, _) => a

/-- The whitespace characters removed by Python `str.strip()`. -/
def isPySpace (c : Char) : Bool :=
  c = ' ' || c = '\t' || c = '\n' || c = '\r' || c = '\x0b' || c = '\x0c'

/-- Python `s.strip()`: drop whitespace from both ends. -/
def trimCh (s : List Char) : List Char :=
  ((s.dropWhile isPySpace).reverse.dropWhile isPySpace).reverse

/-- Python `s.lower()` restricted to the ASCII case mapping (all inputs
the filters compare against are ASCII). -/
def lowerCh (s : List Char) : List Char := s.map Char.toLower

/-- Line-break characters recognised by Python `str.splitlines()`. -/
def isLineBreakCh (c : Char) : Bool :=
  c = '\n' || c = '\r' || c = '\x0b' || c = '\x0c' ||
  c = '\x1c' || c = '\x1d' || c = '\x1e' || c = '\x85' ||
  c = '\u2028' || c = '\u2029'

/-- Python `text.splitlines()`: split at every line break, treating
`\r\n` as a single break, with no trailing empty line. -/
def pySplitlines : List Char → List (List Char)
  | [] => []
  | '\r' :: '\n' :: t => [] :: pySplitlines t
  | c :: t =>
    if isLineBreakCh c then [] :: pySplitlines t
    else match pySplitlines t with
      | [] => [[c]]
      | l :: ls => (c :: l) :: ls

/-- A record produced by `parse_m3u`, mirroring the dict
`{"name": ..., "country": ..., "group_title": ..., "url": ...}`. -/
structure Channel where
  name : List Char
  country : List Char
  group_title : List Char
  url : List Char
deriving Repr, DecidableEq

/-- `allowed_news = {"MSNBC", "CNN", "BBC", "CBC News", "CTV News"}`
(a Python set; only membership-style `any` queries are made, so a list
is an equivalent model). -/
def allowed_news : List (List Char) :=
  [str "MSNBC", str "CNN", str "BBC", str "CBC News", str "CTV News"]

/-- The country-detection cascade of `parse_m3u` (case-sensitive Python
substring tests against the raw group title, in source order); `[]`
models the initial `country = ""`. -/
def detectCountry (g : List Char) : List Char :=
  if containsSub (str "Canada") g || containsSub (str "CA") g then str "CA"
  else if containsSub (str "United States") g || containsSub (str "USA") g ||
          containsSub (str "US") g then str "US"
  else if containsSub (str "United Kingdom") g || containsSub (str "UK") g ||
          containsSub (str "GB") g then str "GB"
  else if containsSub (str "Australia") g || containsSub (str "AU") g then str "AU"
  else []

/-- `re.split` of the group title on the character class pipe, slash,
dash: split at every `|`, `/` or `-` (adjacent delimiters produce empty
fields, as `re.split` does). -/
def splitDelim : List Char → List (List Char)
  | [] => [[]]
  | c :: t =>
    if c = '|' || c = '/' || c = '-' then [] :: splitDelim t
    else match splitDelim t with
      | [] => [[c]]
      | a :: r => (c :: a) :: r

/-- `cats = [c.strip().lower() for c in re.split(..., group_title)]`
with the pipe-slash-dash delimiter class. -/
def catTokens (g : List Char) : List (List Char) :=
  (splitDelim g).map fun c => lowerCh (trimCh c)

/-- `" ".join(cats)` for the tokens derived from a group title. -/
def catsJoined (g : List Char) : List Char :=
  List.intercalate [' '] (catTokens g)

/-- `any(w in " ".join(cats) for w in ["sport","kid","children","adult","xxx","porn"])`. -/
def excludedCats (g : List Char) : Bool :=
  [str "sport", str "kid", str "children", str "adult", str "xxx", str "porn"].any
    fun w => containsSub w (catsJoined g)

/-- `"news" in " ".join(cats) and not any(n in name for n in allowed_news)`:
the condition under which `parse_m3u` drops a news channel.  Note the
inner test is Python substring membership of each allowlist entry in the
display name, not an equality test. -/
def newsBlocked (g name : List Char) : Bool :=
  containsSub (str "news") (catsJoined g) &&
    !(allowed_news.any fun n => containsSub n name)

/-- `re.search(r'group-title="([^"]*)"', line)` with fallback `""`:
the capture is the text between the first `group-title="` and the next
quote.  (If no quote follows the first `group-title="`, then no quote at
all follows it, so no later starting position can match either and the
regex search fails — both model and regex yield `""`.) -/
def extractGroupTitle (line : List Char) : List Char :=
  match splitFirst (str "group-title=\"") line with
  | none => []
  | some (_, r) =>
    match splitFirst (str "\"") r with
    | none => []
    | some (g, _) => g

/-- The `while i < len(lines)` loop of `parse_m3u`, one recursive call
per loop re-entry.  Faithfulness notes, matching the Python control
flow exactly:
* `lines[i].split(",", 1)[1]` raises `IndexError` when the marker line
  has no comma; the bare `except: pass` swallows it and the trailing
  `i += 1` resumes at the next line (`parse_m3u_go rest`).
* after the inner `i += 1`, `lines[i]` raises when the marker is the
  last line; the handler plus `i += 1` pushes `i` past the end (`[]`).
* every `continue` skips the trailing `i += 1`, so a dropped entry
  resumes the scan at the URL line itself, which is exactly the tail
  `rest` (whose head is `urlLine`).
* only a successful append falls through to `i += 1`, resuming after
  the URL line (`rest2`).
* on a final line with no line after it, every path yields `[]`: a
  non-marker line or a comma-less marker just steps to the end of input,
  and a well-formed marker hits the `IndexError` at `lines[i]` whose
  handler also steps past the end — hence the collapsed `[_]` case. -/
def parse_m3u_go : List (List Char) → List Channel
  | [] => []
  | [_] => []
  | line :: urlLine :: rest2 =>
    if isPrefixOfCh (str "#EXTINF:") line then
      match splitFirst (str ",") line with
      | none => parse_m3u_go (urlLine :: rest2)
      | some (_, afterComma) =>
        if isPrefixOfCh (str "http") (trimCh urlLine) then
          if detectCountry (extractGroupTitle line) = [] then parse_m3u_go (urlLine :: rest2)
          else if excludedCats (extractGroupTitle line) = true then
            parse_m3u_go (urlLine :: rest2)
          else if newsBlocked (extractGroupTitle line)
                   (trimCh (beforeFirst (str " tvg-") afterComma)) = true then
            parse_m3u_go (urlLine :: rest2)
          else
            { name := trimCh (beforeFirst (str " tvg-") afterComma),
              country := detectCountry (extractGroupTitle line),
              group_title := extractGroupTitle line,
              url := trimCh urlLine } :: parse_m3u_go rest2
        else parse_m3u_go (urlLine :: rest2)
    else parse_m3u_go (urlLine :: rest2)

/-- `parse_m3u(text)`: split the raw playlist text into lines and scan. -/
def parse_m3u (text : String) : List Channel :=
  parse_m3u_go (pySplitlines (str text))

example : parse_m3u "#EXTINF:-1 group-title=\"Canada\",Chan\nhttp://x" =
    [{ name := str "Chan", country := str "CA", group_title := str "Canada",
       url := str "http://x" }] := by decide

example : parse_m3u "#EXTINF:-1 group-title=\"Sports|CA\",Chan\nhttp://x" = [] := by decide

/-- `l.get("code","")` for an element of `ch.get("languages",[])`. -/
structure JsonLanguage where
  code : List Char
deriving Repr, DecidableEq

/-- `c.get("name","")` for an element of `ch.get("categories",[])`. -/
structure JsonCategory where
  name : List Char
deriving Repr, DecidableEq

/-- One upstream record of the iptv-org `channels.json` feed, holding
exactly the fields `run_task` reads via `ch.get(...)`.  Absent keys are
modelled by their `get` defaults (`""` for strings, `[]` for lists,
`false` for the truthiness test `if ch.get("is_nsfw")`). -/
structure JsonChannel where
  id : List Char
  name : List Char
  network : List Char
  country : List Char
  logo : List Char
  languages : List JsonLanguage
  categories : List JsonCategory
  is_nsfw : Bool
deriving Repr, DecidableEq

/-- The projected record appended to `filtered` in the JSON branch of
`run_task`. -/
structure ChannelEntry where
  id : List Char
  name : List Char
  network : List Char
  country : List Char
  logo : List Char
deriving Repr, DecidableEq

/-- `cats = [c.get("name","").lower() for c in ch.get("categories",[])]`. -/
def lowerCats (ch : JsonChannel) : List (List Char) :=
  ch.categories.map fun c => lowerCh c.name

/-- The cascade of `continue` guards in the JSON branch of `run_task`,
in source order: `true` iff the record survives all of them. -/
def json_keep (ch : JsonChannel) : Bool :=
  if ch.country ∉ [str "CA", str "US", str "GB", str "AU"] then false
  else if str "eng" ∉ ch.languages.map JsonLanguage.code then false
  else if ch.is_nsfw then false
  else if [str "sports", str "kids", str "adult", str "xxx"].any
            (fun x => decide (x ∈ lowerCats ch)) then false
  else if decide (str "news" ∈ lowerCats ch) &&
            !(allowed_news.any fun n => containsSub n ch.name) then false
  else true

/-- The dict appended to `filtered`:
`{"id": ..., "name": ..., "network": ..., "country": ..., "logo": ...}`. -/
def projectEntry (ch : JsonChannel) : ChannelEntry :=
  { id := ch.id, name := ch.name, network := ch.network,
    country := ch.country, logo := ch.logo }

/-- The `for ch in data` filtering loop of the JSON branch: keep the
records passing every guard, projected to their output fields. -/
def json_filter (data : List JsonChannel) : List ChannelEntry :=
  (data.filter fun ch => json_keep ch).map projectEntry

/-- `filtered[0].keys() if filtered else ["name"]`: the `DictWriter`
field names for the JSON-path CSV (dicts preserve the insertion order
id, name, network, country, logo). -/
def json_fieldnames (filtered : List ChannelEntry) : List (List Char) :=
  if filtered.isEmpty then [str "name"]
  else [str "id", str "name", str "network", str "country", str "logo"]

/-- One CSV data row for a `ChannelEntry`, fields in `DictWriter` order. -/
def entryRow (e : ChannelEntry) : List (List Char) :=
  [e.id, e.name, e.network, e.country, e.logo]

/-- The JSON-path CSV as a list of rows: `w.writeheader()` then
`w.writerows(filtered)`. -/
def write_json_csv (filtered : List ChannelEntry) : List (List (List Char)) :=
  json_fieldnames filtered :: filtered.map entryRow

/-- One CSV data row for a playlist `Channel`, fields in the fixed
order `["name","country","group_title","url"]`. -/
def channelRow (c : Channel) : List (List Char) :=
  [c.name, c.country, c.group_title, c.url]

/-- The playlist-path CSV: fixed header then one row per channel. -/
def write_m3u_csv (chs : List Channel) : List (List (List Char)) :=
  [str "name", str "country", str "group_title", str "url"] :: chs.map channelRow

/-- `len(filtered)` rendered as Python's f-string does. -/
def natStr (n : Nat) : List Char := str (Nat.repr n)

/-- `run_task(name, url, filename, is_json)` with its effectful steps
abstracted as explicit outcomes: `fetch` is the result of
`requests.get(url, timeout=40)` plus `r.raise_for_status()` (and
`r.text`), `decode` is `r.json()`, and `write` is the `open`/CSV
write of the produced rows.  The `try` block of `run_task` covers all
of them, so each error is returned as the f-string
`f"{filename} FAILED: {e}"`; a success returns
`f"{filename} → {len(...)} channels"`.  Totality of this function
models that `run_task` never propagates an exception to its caller. -/
def run_task (filename : List Char) (is_json : Bool)
    (fetch : Except (List Char) (List Char))
    (decode : List Char → Except (List Char) (List JsonChannel))
    (write : List (List (List Char)) → Except (List Char) Unit) : List Char :=
  match fetch with
  | Except.error e => filename ++ str " FAILED: " ++ e
  | Except.ok raw =>
    if is_json then
      match decode raw with
      | Except.error e => filename ++ str " FAILED: " ++ e
      | Except.ok data =>
        match write (write_json_csv (json_filter data)) with
        | Except.error e => filename ++ str " FAILED: " ++ e
        | Except.ok _ =>
          filename ++ str " → " ++ natStr (json_filter data).length ++ str " channels"
    else
      match write (write_m3u_csv (parse_m3u_go (pySplitlines raw))) with
      | Except.error e => filename ++ str " FAILED: " ++ e
      | Except.ok _ =>
        filename ++ str " → " ++ natStr (parse_m3u_go (pySplitlines raw)).length ++
          str " channels"

/-- One configured source task together with the outcomes of its
effectful steps; each task owns all of its own state. -/
structure TaskSpec where
  filename : List Char
  is_json : Bool
  fetch : Except (List Char) (List Char)
  decode : List Char → Except (List Char) (List JsonChannel)
  write : List (List (List Char)) → Except (List Char) Unit

/-- Running the four (or any) tasks: each result is a function of its
own task alone, mirroring the absence of shared mutable state in the
thread pool fan-out. -/
def runAll (ts : List TaskSpec) : List (List Char) :=
  ts.map fun t => run_task t.filename t.is_json t.fetch t.decode t.write

/-- A sample upstream JSON record that passes every filter gate, used
to exercise the JSON pipeline on concrete input. -/
def sampleJson : JsonChannel :=
  { id := str "cbc.ca", name := str "Chan", network := str "Net",
    country := str "CA", logo := str "http://logo",
    languages := [{ code := str "eng" }],
    categories := [{ name := str "General" }],
    is_nsfw := false }

theorem containsSub_nil (pat : List Char) : containsSub pat [] = pat.isEmpty := by
  cases pat <;> rfl

theorem splitFirst_isSome (pat : List Char) (s : List Char) :
    (splitFirst pat s).isSome = containsSub pat s := by
  induction s with
  | nil => cases pat <;> simp [splitFirst, containsSub, isPrefixOfCh, List.isEmpty]
  | cons c t ih =>
    by_cases h : isPrefixOfCh pat (c :: t) = true
    · simp [splitFirst, containsSub, h]
    · rw [Bool.not_eq_true] at h
      simp only [splitFirst, containsSub, h, if_false, Bool.false_or]
      rw [← ih]
      cases hs : splitFirst pat t with
      | none => simp
      | some p => cases p; simp

theorem splitFirst_eq_none (pat s : List Char) (h : containsSub pat s = false) :
    splitFirst pat s = none := by
  have h2 := splitFirst_isSome pat s
  rw [h] at h2
  exact Option.not_isSome_iff_eq_none.mp (by simp [h2])

theorem isPrefixOfCh_append_self (p r : List Char) :
    isPrefixOfCh p (p ++ r) = true := by
  induction p with
  | nil => rfl
  | cons c t ih => simp [isPrefixOfCh, ih]

theorem containsSub_of_isPrefixOfCh {p h : List Char}
    (hp : isPrefixOfCh p h = true) : containsSub p h = true := by
  cases h with
  | nil => exact hp
  | cons c t => simp [containsSub, hp]

theorem containsSub_append_left (pre : List Char) {p h : List Char}
    (hc : containsSub p h = true) : containsSub p (pre ++ h) = true := by
  induction pre with
  | nil => exact hc
  | cons c t ih => simp [containsSub, ih]

theorem parse_m3u_go_sound :
    ∀ ls : List (List Char), ∀ c ∈ parse_m3u_go ls,
      isPrefixOfCh (str "http") c.url = true ∧
      detectCountry c.group_title = c.country ∧
      c.country ≠ [] ∧
      excludedCats c.group_title = false ∧
      newsBlocked c.group_title c.name = false := by
  intro ls
  induction ls using parse_m3u_go.induct with
  | case1 => simp [parse_m3u_go]
  | case2 _ => simp [parse_m3u_go]
  | case3 line urlLine rest2 h hx ih =>
    intro c hc
    simp only [parse_m3u_go, h, hx, if_true] at hc
    exact ih c hc
  | case4 line urlLine rest2 h a b hx hu hd ih =>
    intro c hc
    simp only [parse_m3u_go, h, hx, hu, hd, if_true] at hc
    exact ih c hc
  | case5 line urlLine rest2 h a b hx hu hd he ih =>
    intro c hc
    simp only [parse_m3u_go, h, hx, hu, hd, he, if_true, if_false, if_neg hd] at hc
    exact ih c hc
  | case6 line urlLine rest2 h a b hx hu hd he hn ih =>
    intro c hc
    simp only [parse_m3u_go, h, hx, hu, hn, if_true, if_neg hd, if_neg he] at hc
    exact ih c hc
  | case7 line urlLine rest2 h a b hx hu hd he hn ih =>
    intro c hc
    simp only [parse_m3u_go, h, hx, hu, if_true, if_neg hd, if_neg he, if_neg hn] at hc
    rcases List.mem_cons.mp hc with hc | hc
    · subst hc
      refine ⟨hu, rfl, hd, ?_, ?_⟩
      · exact Bool.not_eq_true _ ▸ he
      · exact Bool.not_eq_true _ ▸ hn
    · exact ih c hc
  | case8 line urlLine rest2 h a b hx hu ih =>
    intro c hc
    simp only [parse_m3u_go, h, hx, if_true, if_neg hu] at hc
    exact ih c hc
  | case9 line urlLine rest2 h ih =>
    intro c hc
    simp only [parse_m3u_go, if_neg h] at hc
    exact ih c hc

theorem detectCountry_cases (g : List Char) :
    detectCountry g = [] ∨
      detectCountry g ∈ [str "CA", str "US", str "GB", str "AU"] := by
  unfold detectCountry
  repeat' split
  all_goals decide

theorem ne_nil_of_prefix_http {u : List Char}
    (h : isPrefixOfCh (str "http") u = true) : u ≠ [] := by
  intro he
  rw [he] at h
  exact absurd h (by decide)

theorem isPrefixOfCh_self (p : List Char) : isPrefixOfCh p p = true := by
  have h := isPrefixOfCh_append_self p []
  rwa [List.append_nil] at h

/-- C2: every record emitted by the playlist parser has a non-empty URL
starting with "http" and a country among CA, US, GB, AU. -/
theorem C2_playlist_records_http_and_country (text : String) :
    ∀ c ∈ parse_m3u text,
      c.url ≠ [] ∧ isPrefixOfCh (str "http") c.url = true ∧
        c.country ∈ [str "CA", str "US", str "GB", str "AU"] := by
  intro c hc
  obtain ⟨hu, hd, hne, -, -⟩ := parse_m3u_go_sound _ c hc
  refine ⟨ne_nil_of_prefix_http hu, hu, ?_⟩
  rcases detectCountry_cases c.group_title with h | h
  · rw [hd] at h
    exact absurd h hne
  · rwa [hd] at h

theorem C2_playlist_records_http_and_country_witness :
    ({ name := str "Chan", country := str "CA", group_title := str "Canada",
       url := str "http://x" } : Channel) ∈
        parse_m3u "#EXTINF:-1 group-title=\"Canada\",Chan\nhttp://x" ∧
    (str "http://x" ≠ [] ∧ isPrefixOfCh (str "http") (str "http://x") = true ∧
      str "CA" ∈ [str "CA", str "US", str "GB", str "AU"]) :=
  ⟨by decide,
   C2_playlist_records_http_and_country
     "#EXTINF:-1 group-title=\"Canada\",Chan\nhttp://x"
     { name := str "Chan", country := str "CA", group_title := str "Canada",
       url := str "http://x" } (by decide)⟩

/-- C5: an entry-info line with no comma never aborts the parse: the
entry is skipped and the scan of the remaining lines is unchanged (the
parser itself is a total function, modelling that no exception reaches
the caller). -/
theorem C5_no_comma_entry_skipped (line : List Char) (rest : List (List Char))
    (hm : isPrefixOfCh (str "#EXTINF:") line = true)
    (hc : containsSub (str ",") line = false) :
    parse_m3u_go (line :: rest) = parse_m3u_go rest := by
  have hs := splitFirst_eq_none (str ",") line hc
  cases rest with
  | nil => simp [parse_m3u_go]
  | cons u r => simp only [parse_m3u_go, hm, hs, if_true]

theorem C5_no_comma_entry_skipped_witness :
    (isPrefixOfCh (str "#EXTINF:") (str "#EXTINF:-1 no comma here") = true ∧
     containsSub (str ",") (str "#EXTINF:-1 no comma here") = false) ∧
    parse_m3u_go
        [str "#EXTINF:-1 no comma here",
         str "#EXTINF:-1 group-title=\"Canada\",Chan", str "http://x"] =
      parse_m3u_go
        [str "#EXTINF:-1 group-title=\"Canada\",Chan", str "http://x"] :=
  ⟨⟨by decide, by decide⟩,
   C5_no_comma_entry_skipped (str "#EXTINF:-1 no comma here")
     [str "#EXTINF:-1 group-title=\"Canada\",Chan", str "http://x"]
     (by decide) (by decide)⟩

/-- C10: when the line after an entry-info marker does not start with
"http", the scan resumes at that very line (the `continue` skips the
trailing `i += 1`); in particular a second consecutive marker line is
processed as the start of the next entry. -/
theorem C10_scan_resumes_at_url_line (line urlLine : List Char)
    (rest2 : List (List Char))
    (hm : isPrefixOfCh (str "#EXTINF:") line = true)
    (hc : containsSub (str ",") line = true)
    (hu : isPrefixOfCh (str "http") (trimCh urlLine) = false) :
    parse_m3u_go (line :: urlLine :: rest2) = parse_m3u_go (urlLine :: rest2) := by
  have hsome := splitFirst_isSome (str ",") line
  rw [hc] at hsome
  obtain ⟨⟨a, b⟩, hs⟩ := Option.isSome_iff_exists.mp hsome
  simp only [parse_m3u_go, hm, hs, hu, if_true]
  simp

theorem C10_scan_resumes_at_url_line_witness :
    (isPrefixOfCh (str "http")
        (trimCh (str "#EXTINF:-1 group-title=\"Canada\",CBC News")) = false) ∧
    parse_m3u_go
        [str "#EXTINF:-1 group-title=\"Canada\",First",
         str "#EXTINF:-1 group-title=\"Canada\",CBC News", str "http://x"] =
      parse_m3u_go
        [str "#EXTINF:-1 group-title=\"Canada\",CBC News", str "http://x"] ∧
    parse_m3u_go
        [str "#EXTINF:-1 group-title=\"Canada\",CBC News", str "http://x"] =
      [{ name := str "CBC News", country := str "CA",
         group_title := str "Canada", url := str "http://x" }] :=
  ⟨by decide,
   C10_scan_resumes_at_url_line
     (str "#EXTINF:-1 group-title=\"Canada\",First")
     (str "#EXTINF:-1 group-title=\"Canada\",CBC News")
     [str "http://x"] (by decide) (by decide) (by decide),
   by decide⟩

/-- C4: country derivation is a substring match against the group title
in fixed priority order (Canada-keywords, then US, then UK, then
Australia), and an entry matching none of them contributes no record
(every emitted record carries a successfully detected country). -/
theorem C4_country_priority_order :
    (∀ g : List Char,
      ((containsSub (str "Canada") g || containsSub (str "CA") g) = true →
        detectCountry g = str "CA") ∧
      ((containsSub (str "Canada") g || containsSub (str "CA") g) = false →
       (containsSub (str "United States") g || containsSub (str "USA") g ||
        containsSub (str "US") g) = true →
        detectCountry g = str "US") ∧
      ((containsSub (str "Canada") g || containsSub (str "CA") g) = false →
       (containsSub (str "United States") g || containsSub (str "USA") g ||
        containsSub (str "US") g) = false →
       (containsSub (str "United Kingdom") g || containsSub (str "UK") g ||
        containsSub (str "GB") g) = true →
        detectCountry g = str "GB") ∧
      ((containsSub (str "Canada") g || containsSub (str "CA") g) = false →
       (containsSub (str "United States") g || containsSub (str "USA") g ||
        containsSub (str "US") g) = false →
       (containsSub (str "United Kingdom") g || containsSub (str "UK") g ||
        containsSub (str "GB") g) = false →
       (containsSub (str "Australia") g || containsSub (str "AU") g) = true →
        detectCountry g = str "AU") ∧
      ((containsSub (str "Canada") g || containsSub (str "CA") g) = false →
       (containsSub (str "United States") g || containsSub (str "USA") g ||
        containsSub (str "US") g) = false →
       (containsSub (str "United Kingdom") g || containsSub (str "UK") g ||
        containsSub (str "GB") g) = false →
       (containsSub (str "Australia") g || containsSub (str "AU") g) = false →
        detectCountry g = [])) ∧
    (∀ text : String, ∀ c ∈ parse_m3u text,
      detectCountry c.group_title = c.country ∧ c.country ≠ []) := by
  constructor
  · intro g
    refine ⟨fun h1 => ?_, fun h1 h2 => ?_, fun h1 h2 h3 => ?_,
            fun h1 h2 h3 h4 => ?_, fun h1 h2 h3 h4 => ?_⟩
    · unfold detectCountry; rw [h1]; simp
    · unfold detectCountry; rw [h1, h2]; simp
    · unfold detectCountry; rw [h1, h2, h3]; simp
    · unfold detectCountry; rw [h1, h2, h3, h4]; simp
    · unfold detectCountry; rw [h1, h2, h3, h4]; simp
  · intro text c hc
    obtain ⟨-, hd, hne, -, -⟩ := parse_m3u_go_sound _ c hc
    exact ⟨hd, hne⟩

theorem C4_country_priority_order_witness :
    ((containsSub (str "Canada") (str "Sports US") ||
      containsSub (str "CA") (str "Sports US")) = false ∧
     (containsSub (str "United States") (str "Sports US") ||
      containsSub (str "USA") (str "Sports US") ||
      containsSub (str "US") (str "Sports US")) = true) ∧
    detectCountry (str "Sports US") = str "US" :=
  ⟨⟨by decide, by decide⟩,
   ((C4_country_priority_order.1 (str "Sports US")).2.1 (by decide) (by decide))⟩

/-- C8: the category-exclusion test lower-cases the group title before
matching, so both spellings of a sports group yield no record (the
upper-case variant is in fact already dropped earlier by the
case-sensitive country gate, which finds no `CA` keyword in
`SPORTS|ca`). -/
theorem C8_category_exclusion_case_insensitive :
    parse_m3u "#EXTINF:-1 group-title=\"Sports|CA\",Chan One\nhttp://a" = [] ∧
    parse_m3u "#EXTINF:-1 group-title=\"SPORTS|ca\",Chan Two\nhttp://b" = [] ∧
    excludedCats (str "Sports|CA") = true ∧
    excludedCats (str "SPORTS|ca") = true := by decide

/-- C9: country detection runs case-sensitively on the raw
(non-lower-cased) group title: for every group title that contains a
country keyword only in a different letter case — some keyword occurs
in the lower-cased title, but none occurs verbatim — no country is
assigned, and every playlist entry carrying such a group title emits no
record (whatever the following line is, the scan continues at it as if
the entry were absent) — even though category exclusion lower-cases the
very same group title. -/
theorem C9_country_detection_case_sensitive (g : List Char)
    (hci : ∃ kw ∈ [str "Canada", str "CA", str "United States", str "USA",
                   str "US", str "United Kingdom", str "UK", str "GB",
                   str "Australia", str "AU"],
           containsSub (lowerCh kw) (lowerCh g) = true)
    (hcs : ∀ kw ∈ [str "Canada", str "CA", str "United States", str "USA",
                   str "US", str "United Kingdom", str "UK", str "GB",
                   str "Australia", str "AU"],
           containsSub kw g = false) :
    detectCountry g = [] ∧
    ∀ (line urlLine : List Char) (rest2 : List (List Char)),
      isPrefixOfCh (str "#EXTINF:") line = true →
      containsSub (str ",") line = true →
      extractGroupTitle line = g →
      parse_m3u_go (line :: urlLine :: rest2) = parse_m3u_go (urlLine :: rest2) := by
  have h1 := hcs (str "Canada") (by decide)
  have h2 := hcs (str "CA") (by decide)
  have h3 := hcs (str "United States") (by decide)
  have h4 := hcs (str "USA") (by decide)
  have h5 := hcs (str "US") (by decide)
  have h6 := hcs (str "United Kingdom") (by decide)
  have h7 := hcs (str "UK") (by decide)
  have h8 := hcs (str "GB") (by decide)
  have h9 := hcs (str "Australia") (by decide)
  have h10 := hcs (str "AU") (by decide)
  have hdet0 : detectCountry g = [] := by
    unfold detectCountry
    rw [h1, h2, h3, h4, h5, h6, h7, h8, h9, h10]
    simp
  refine ⟨hdet0, ?_⟩
  intro line urlLine rest2 hm hc hg
  have hsome : (splitFirst (str ",") line).isSome = true := by
    rw [splitFirst_isSome, hc]
  obtain ⟨⟨a, b⟩, hs⟩ := Option.isSome_iff_exists.mp hsome
  have hdet : detectCountry (extractGroupTitle line) = [] := by
    rw [hg]; exact hdet0
  by_cases hu : isPrefixOfCh (str "http") (trimCh urlLine) = true
  · simp only [parse_m3u_go, hm, hs, hu, hdet, if_true]
  · rw [Bool.not_eq_true] at hu
    simp only [parse_m3u_go, hm, hs, hu, if_true]
    simp

theorem C9_country_detection_case_sensitive_witness :
    detectCountry (str "canada") = [] ∧
    parse_m3u_go
        [str "#EXTINF:-1 group-title=\"canada\",Chan", str "http://x"] =
      parse_m3u_go [str "http://x"] ∧
    detectCountry (str "usa") = [] ∧
    parse_m3u "#EXTINF:-1 group-title=\"canada\",Chan\nhttp://x" = [] ∧
    parse_m3u "#EXTINF:-1 group-title=\"Canada\",Chan\nhttp://x" =
      [{ name := str "Chan", country := str "CA", group_title := str "Canada",
         url := str "http://x" }] :=
  ⟨(C9_country_detection_case_sensitive (str "canada")
      ⟨str "Canada", by decide, by decide⟩ (by decide)).1,
   (C9_country_detection_case_sensitive (str "canada")
      ⟨str "Canada", by decide, by decide⟩ (by decide)).2
     (str "#EXTINF:-1 group-title=\"canada\",Chan") (str "http://x") []
     (by decide) (by decide) (by decide),
   (C9_country_detection_case_sensitive (str "usa")
      ⟨str "USA", by decide, by decide⟩ (by decide)).1,
   by decide, by decide⟩

/-- C1 counterexample: a playlist entry in the "news" category whose
display name is `CNN International` — not an exact member of the
allowlist — is nevertheless kept, because the code tests substring
membership (`n in name`), not exact equality. -/
theorem C1_counterexample_substring_name_kept :
    parse_m3u
        "#EXTINF:-1 group-title=\"News|CA\",CNN International\nhttp://example.com/stream" =
      [{ name := str "CNN International", country := str "CA",
         group_title := str "News|CA", url := str "http://example.com/stream" }] ∧
    containsSub (str "news") (catsJoined (str "News|CA")) = true ∧
    (str "CNN International") ∉ allowed_news := by decide

/-- C1 (amended): a record whose derived categories contain "news" is
kept only if its display name contains one of {MSNBC, CNN, BBC,
CBC News, CTV News} as a substring (the code tests `n in name`, not
exact equality); records with no "news" category are unaffected by the
rule (their display name plays no role in it). -/
theorem C1_amended_news_allowlist_substring :
    (∀ text : String, ∀ c ∈ parse_m3u text,
      containsSub (str "news") (catsJoined c.group_title) = true →
      (allowed_news.any fun n => containsSub n c.name) = true) ∧
    (∀ ch : JsonChannel, json_keep ch = true → str "news" ∈ lowerCats ch →
      (allowed_news.any fun n => containsSub n ch.name) = true) ∧
    (∀ g name : List Char,
      containsSub (str "news") (catsJoined g) = false →
      newsBlocked g name = false) ∧
    (∀ (ch : JsonChannel) (name2 : List Char), str "news" ∉ lowerCats ch →
      json_keep ch = json_keep { ch with name := name2 }) := by
  refine ⟨?_, ?_, ?_, ?_⟩
  · intro text c hc hnews
    obtain ⟨-, -, -, -, hnb⟩ := parse_m3u_go_sound _ c hc
    simpa [newsBlocked, hnews] using hnb
  · intro ch hk hnews
    by_contra hany
    rw [Bool.not_eq_true] at hany
    rw [json_keep] at hk
    repeat' split at hk
    all_goals try exact absurd hk (by decide)
    rename_i h5
    exact h5 (by simp [hnews, hany])
  · intro g name h
    simp [newsBlocked, h]
  · intro ch name2 h
    have hd : decide (str "news" ∈ lowerCats ch) = false := by simp [h]
    have hcats : lowerCats { ch with name := name2 } = lowerCats ch := rfl
    simp only [json_keep, hcats, hd, Bool.false_and]

theorem C1_amended_news_allowlist_substring_witness :
    ({ name := str "CNN International", country := str "CA",
       group_title := str "News|CA", url := str "http://example.com/stream" } : Channel) ∈
        parse_m3u
          "#EXTINF:-1 group-title=\"News|CA\",CNN International\nhttp://example.com/stream" ∧
    containsSub (str "news") (catsJoined (str "News|CA")) = true ∧
    (allowed_news.any fun n => containsSub n (str "CNN International")) = true :=
  ⟨by decide, by decide,
   C1_amended_news_allowlist_substring.1
     "#EXTINF:-1 group-title=\"News|CA\",CNN International\nhttp://example.com/stream"
     { name := str "CNN International", country := str "CA",
       group_title := str "News|CA", url := str "http://example.com/stream" }
     (by decide) (by decide)⟩

/-- C3: every entry emitted by the JSON filtering pipeline is the
projection of an upstream record with country in {CA,US,GB,AU}, "eng"
among its language codes, a false NSFW flag, and no lower-cased
category name in {sports, kids, adult, xxx}. -/
theorem C3_json_entries_from_filtered_upstream (data : List JsonChannel) :
    ∀ e ∈ json_filter data, ∃ ch ∈ data,
      e = projectEntry ch ∧
      ch.country ∈ [str "CA", str "US", str "GB", str "AU"] ∧
      str "eng" ∈ ch.languages.map JsonLanguage.code ∧
      ch.is_nsfw = false ∧
      ∀ cat ∈ ch.categories,
        lowerCh cat.name ∉ [str "sports", str "kids", str "adult", str "xxx"] := by
  intro e he
  simp only [json_filter, List.mem_map, List.mem_filter] at he
  obtain ⟨ch, ⟨hmem, hk⟩, hproj⟩ := he
  rw [json_keep] at hk
  repeat' split at hk
  all_goals try exact absurd hk (by decide)
  rename_i h1 h2 h3 h4 h5
  refine ⟨ch, hmem, hproj.symm, not_not.mp h1, not_not.mp h2, ?_, ?_⟩
  · rw [Bool.not_eq_true] at h3
    exact h3
  · intro cat hcat hbad
    apply h4
    have hmm : lowerCh cat.name ∈ lowerCats ch := by
      simp only [lowerCats, List.mem_map]
      exact ⟨cat, hcat, rfl⟩
    refine List.any_eq_true.mpr ⟨lowerCh cat.name, hbad, by simp [hmm]⟩

theorem C3_json_entries_from_filtered_upstream_witness :
    projectEntry sampleJson ∈ json_filter [sampleJson] ∧
    (∃ ch ∈ [sampleJson],
      projectEntry sampleJson = projectEntry ch ∧
      ch.country ∈ [str "CA", str "US", str "GB", str "AU"] ∧
      str "eng" ∈ ch.languages.map JsonLanguage.code ∧
      ch.is_nsfw = false ∧
      ∀ cat ∈ ch.categories,
        lowerCh cat.name ∉ [str "sports", str "kids", str "adult", str "xxx"]) :=
  ⟨by decide,
   C3_json_entries_from_filtered_upstream [sampleJson]
     (projectEntry sampleJson) (by decide)⟩

/-- C7: with an empty filtered set the JSON-path CSV is exactly one
fallback header row `name` and zero data rows (the writer is a total
function — producing it is not an error); with a non-empty set the
header row is id, name, network, country, logo, followed by one data
row per record. -/
theorem C7_json_csv_headers :
    write_json_csv [] = [[str "name"]] ∧
    (∀ (e : ChannelEntry) (es : List ChannelEntry),
      write_json_csv (e :: es) =
        [str "id", str "name", str "network", str "country", str "logo"] ::
          (e :: es).map entryRow) := by
  refine ⟨by decide, fun e es => ?_⟩
  simp [write_json_csv, json_fieldnames]

/-- C6: `run_task` is a total function of its task's own inputs (no
exception propagates): every failing step — fetch, JSON decode, or CSV
write — yields the failure string `f"{filename} FAILED: {e}"`, which
contains the output filename and the error text; and the result of the
task at any index of a task list depends only on that task, so one
task's failure cannot alter another's result. -/
theorem C6_run_task_failure_isolation :
    (∀ (fn e : List Char) (j : Bool)
        (d : List Char → Except (List Char) (List JsonChannel))
        (w : List (List (List Char)) → Except (List Char) Unit),
      run_task fn j (Except.error e) d w = fn ++ str " FAILED: " ++ e ∧
      containsSub fn (run_task fn j (Except.error e) d w) = true ∧
      containsSub e (run_task fn j (Except.error e) d w) = true) ∧
    (∀ (fn raw e : List Char) d w, d raw = Except.error e →
      run_task fn true (Except.ok raw) d w = fn ++ str " FAILED: " ++ e) ∧
    (∀ (fn raw e : List Char) d w (data : List JsonChannel),
      d raw = Except.ok data →
      w (write_json_csv (json_filter data)) = Except.error e →
      run_task fn true (Except.ok raw) d w = fn ++ str " FAILED: " ++ e) ∧
    (∀ (fn raw e : List Char)
        (d : List Char → Except (List Char) (List JsonChannel)) w,
      w (write_m3u_csv (parse_m3u_go (pySplitlines raw))) = Except.error e →
      run_task fn false (Except.ok raw) d w = fn ++ str " FAILED: " ++ e) ∧
    (∀ (ts ts' : List TaskSpec) (i : Nat), ts[i]? = ts'[i]? →
      (runAll ts)[i]? = (runAll ts')[i]?) := by
  refine ⟨?_, ?_, ?_, ?_, ?_⟩
  · intro fn e j d w
    refine ⟨rfl, ?_, ?_⟩
    · show containsSub fn (fn ++ str " FAILED: " ++ e) = true
      rw [List.append_assoc]
      exact containsSub_of_isPrefixOfCh (isPrefixOfCh_append_self fn _)
    · show containsSub e (fn ++ str " FAILED: " ++ e) = true
      exact containsSub_append_left (fn ++ str " FAILED: ")
        (containsSub_of_isPrefixOfCh (isPrefixOfCh_self e))
  · intro fn raw e d w hd
    simp [run_task, hd]
  · intro fn raw e d w data hd hw
    simp [run_task, hd, hw]
  · intro fn raw e d w hw
    simp [run_task, hw]
  · intro ts ts' i h
    simp only [runAll, List.getElem?_map, h]

theorem C6_run_task_failure_isolation_witness :
    (run_task (str "1_iptv-org_full.csv") true (Except.error (str "timed out"))
        (fun _ => Except.ok []) (fun _ => Except.ok ()) =
      str "1_iptv-org_full.csv" ++ str " FAILED: " ++ str "timed out" ∧
     containsSub (str "1_iptv-org_full.csv")
        (run_task (str "1_iptv-org_full.csv") true (Except.error (str "timed out"))
          (fun _ => Except.ok []) (fun _ => Except.ok ())) = true ∧
     containsSub (str "timed out")
        (run_task (str "1_iptv-org_full.csv") true (Except.error (str "timed out"))
          (fun _ => Except.ok []) (fun _ => Except.ok ())) = true) ∧
    run_task (str "2_english_m3u.csv") true (Except.ok (str "raw"))
        (fun _ => Except.error (str "Expecting value")) (fun _ => Except.ok ()) =
      str "2_english_m3u.csv" ++ str " FAILED: " ++ str "Expecting value" ∧
    run_task (str "3_free_tv.csv") true (Except.ok (str "raw"))
        (fun _ => Except.ok []) (fun _ => Except.error (str "permission denied")) =
      str "3_free_tv.csv" ++ str " FAILED: " ++ str "permission denied" ∧
    run_task (str "4_canada_kitchener.csv") false (Except.ok (str "not a playlist"))
        (fun _ => Except.ok []) (fun _ => Except.error (str "disk full")) =
      str "4_canada_kitchener.csv" ++ str " FAILED: " ++ str "disk full" ∧
    (runAll [{ filename := str "2_english_m3u.csv", is_json := false,
               fetch := Except.ok (str ""), decode := fun _ => Except.ok [],
               write := fun _ => Except.ok () }])[0]? =
      (runAll [{ filename := str "2_english_m3u.csv", is_json := false,
                 fetch := Except.error (str "timeout"), decode := fun _ => Except.ok [],
                 write := fun _ => Except.ok () },
               { filename := str "2_english_m3u.csv", is_json := false,
                 fetch := Except.ok (str ""), decode := fun _ => Except.ok [],
                 write := fun _ => Except.ok () }])[1]? :=
  ⟨C6_run_task_failure_isolation.1 (str "1_iptv-org_full.csv") (str "timed out")
     true (fun _ => Except.ok []) (fun _ => Except.ok ()),
   C6_run_task_failure_isolation.2.1 (str "2_english_m3u.csv") (str "raw")
     (str "Expecting value") (fun _ => Except.error (str "Expecting value"))
     (fun _ => Except.ok ()) rfl,
   C6_run_task_failure_isolation.2.2.1 (str "3_free_tv.csv") (str "raw")
     (str "permission denied") (fun _ => Except.ok [])
     (fun _ => Except.error (str "permission denied")) [] rfl rfl,
   C6_run_task_failure_isolation.2.2.2.1 (str "4_canada_kitchener.csv")
     (str "not a playlist") (str "disk full") (fun _ => Except.ok [])
     (fun _ => Except.error (str "disk full")) rfl,
   by decide⟩
